import Mathlib

/-!
Verification of the Sierra AP-change analysis
(`src/crates/cairo-lang-sierra-ap-change/src/lib.rs`) and of the `cairo-run`
driver (`src/crates/bin/cairo-run/src/main.rs`).

The definitions below are a shallow embedding of the two source files.
Components that the source files use but whose code is not part of the
repository excerpt (the program registry, the equation generator module, the
linear-equation solver, the Sierra/CASM runner) appear as parameters or as
definitions explicitly marked `Modelled from the spec:`.
-/

/-! ## Data model (from `cairo-lang-sierra-ap-change/src/lib.rs`) -/

/-- Identity of a named function (`cairo_lang_sierra::ids::FunctionId`),
modelled by its numeric id. -/
abbrev FunctionId := Nat

/-- Identity of a fixed-layout type (`cairo_lang_sierra::ids::ConcreteTypeId`),
modelled by its numeric id. -/
abbrev ConcreteTypeId := Nat

/-- An index into the ordered statement sequence
(`cairo_lang_sierra::program::StatementIdx`). -/
structure StatementIdx where
  idx : Nat
deriving DecidableEq, Repr

/-- The enum `ApChange` (lib.rs lines 19-34): describes the effect on the
`ap` register in a given libfunc branch. -/
inductive ApChange where
  | Unknown : ApChange
  | Known (n : Nat) : ApChange
  | FromMetadata : ApChange
  | AtLocalsFinalization (n : Nat) : ApChange
  | FunctionCall (f : FunctionId) : ApChange
  | FinalizeLocals : ApChange
deriving DecidableEq, Repr

/-- The error type `ProgramRegistryError` of `cairo_lang_sierra::program_registry`.
The type is external to the repository excerpt; only its identity matters
here, so it is modelled as an opaque error code. -/
structure ProgramRegistryError where
  code : Nat
deriving DecidableEq, Repr

/-- The enum `ApChangeError` (lib.rs lines 36-49): error occurring while
calculating the ap changes of a program.  The `ProgramRegistryError` variant
carries the boxed inner registry error (`#[from] Box<ProgramRegistryError>`). -/
inductive ApChangeError where
  | ProgramRegistryError (inner : ProgramRegistryError) : ApChangeError
  | StatementOutOfBounds (idx : StatementIdx) : ApChangeError
  | StatementOutOfOrder (idx : StatementIdx) : ApChangeError
  | IllegalInvocation (idx : StatementIdx) : ApChangeError
  | SolvingApChangeEquationFailed : ApChangeError
deriving DecidableEq, Repr

/-- The enum `generate_equations::Var`: the two unknown-variable kinds of the
equation system (used by `calc_ap_changes` lines 79-86; the defining module
is not part of the excerpt, but the two constructors are exactly the ones
matched in lib.rs). -/
inductive Var where
  | LibfuncImplicitApChangeVariable (idx : StatementIdx) : Var
  | FunctionApChange (func_id : FunctionId) : Var
deriving DecidableEq, Repr

/-- The struct `generate_equations::Effects` as constructed in lib.rs lines
66-71: an AP-change classification paired with a locals count. -/
structure Effects where
  ap_change : ApChange
  locals : Nat
deriving DecidableEq, Repr

/-- The rewriting applied to each classification inside `calc_ap_changes`
(lib.rs lines 65-71):
`AtLocalsFinalization(known)` becomes `Effects { ap_change: Known(0), locals: known }`,
anything else becomes `Effects { ap_change, locals: 0 }`. -/
def effectOfApChange (ap_change : ApChange) : Effects :=
  match ap_change with
  | ApChange.AtLocalsFinalization known =>
      { ap_change := ApChange.Known 0, locals := known }
  | other => { ap_change := other, locals := 0 }

/-- The per-libfunc list of branch effects assembled in `calc_ap_changes`
(lib.rs lines 62-73): each classification returned by
`core_libfunc_ap_change` is mapped through the rewriting. -/
def libfuncBranchEffects (classifications : List ApChange) : List Effects :=
  classifications.map effectOfApChange

/-- Semantics of Rust's `value as usize` cast on a 64-bit target: the value
is reduced modulo `2^64` (two's-complement reinterpretation). -/
def usizeOfInt (v : Int) : Nat := (v % (2 : Int) ^ 64).toNat

/-- The result struct `ApChangeInfo` (module `ap_change_info`): the two
result maps of the analysis.  The Rust `HashMap`s are modelled extensionally
as partial functions. -/
structure ApChangeInfo where
  variable_values : StatementIdx → Option Nat
  function_ap_change : FunctionId → Option Nat

/-- The empty pair of maps (`HashMap::default()`, lib.rs lines 77-78). -/
def emptyInfo : ApChangeInfo :=
  { variable_values := fun _ => none, function_ap_change := fun _ => none }

/-- One iteration of the result-assembly loop (lib.rs lines 80-86): route the
solved pair into the map selected by the variable's constructor, casting the
value with `as usize`. -/
def recordVar (acc : ApChangeInfo) (var : Var) (value : Int) : ApChangeInfo :=
  match var with
  | Var.LibfuncImplicitApChangeVariable idx =>
      { acc with variable_values :=
          fun j => if j = idx then some (usizeOfInt value) else acc.variable_values j }
  | Var.FunctionApChange func_id =>
      { acc with function_ap_change :=
          fun g => if g = func_id then some (usizeOfInt value) else acc.function_ap_change g }

/-- The result-assembly loop of `calc_ap_changes` (lib.rs lines 79-86): fold
`recordVar` over the solver's assignment in iteration order. -/
def assembleSolution (acc : ApChangeInfo) : List (Var × Int) → ApChangeInfo
  | [] => acc
  | (var, value) :: rest => assembleSolution (recordVar acc var value) rest

/-- The function `calc_ap_changes` (lib.rs lines 58-88).  The external
collaborators are parameters: `regResult` is the outcome of
`ProgramRegistry::new(program)` (its error is wrapped by `?` through the
`#[from]` conversion), `gen` is `generate_equations::generate_equations`
applied to the registry, and `solver` is
`cairo_lang_eq_solver::try_solve_equations`.  Everything else is the literal
control flow of the function. -/
def calc_ap_changes {R E : Type} (regResult : Except ProgramRegistryError R)
    (gen : R → Except ApChangeError E)
    (solver : E → Option (List (Var × Int))) : Except ApChangeError ApChangeInfo :=
  match regResult with
  | Except.error e => Except.error (ApChangeError.ProgramRegistryError e)
  | Except.ok registry =>
    match gen registry with
    | Except.error e => Except.error e
    | Except.ok equations =>
      match solver equations with
      | none => Except.error ApChangeError.SolvingApChangeEquationFailed
      | some solution => Except.ok (assembleSolution emptyInfo solution)

/-- Specification-side description of `HashMap::insert`'s last-write-wins
behaviour: the value of the last pair of the list keyed by `k`.  Used only to
state and prove lemmas about `assembleSolution`. -/
def lastAssignment : List (Var × Int) → Var → Option Int
  | [], _ => none
  | (v, i) :: rest, k =>
    match lastAssignment rest k with
    | some j => some j
    | none => if v = k then some i else none

/-! ## Type-size lookups (`ApChangeInfoProvider` impl, lib.rs lines 51-55) -/

/-- Result of `ConcreteType::info()`; only the `size` field is used by
lib.rs.  The field is an integer cast to `usize` at the use site. -/
structure TypeInfo where
  size : Int
deriving DecidableEq, Repr

/-- View of the program registry as used by the `ApChangeInfoProvider`
implementation: a fallible lookup from a concrete type id to its info
(`ProgramRegistry::get_type`, external to the excerpt). -/
structure TypeRegistry where
  get_type : ConcreteTypeId → Except ProgramRegistryError TypeInfo

/-- The `ApChangeInfoProvider::type_size` implementation (lib.rs lines
51-55): `self.get_type(ty).unwrap().info().size as usize`.  The `.unwrap()`
turns a lookup failure into a process abort, modelled as `none`; the
successful path returns the cast size. -/
def type_size (self : TypeRegistry) (ty : ConcreteTypeId) : Option Nat :=
  match self.get_type ty with
  | Except.ok info => some (usizeOfInt info.size)
  | Except.error _ => none

/-- A registry on which every type lookup fails. -/
def failingRegistry : TypeRegistry :=
  { get_type := fun _ => Except.error { code := 0 } }

/-- Identity of a concrete libfunc (`cairo_lang_sierra::ids::ConcreteLibfuncId`),
modelled by its numeric id. -/
abbrev LibfuncId := Nat

/-- The per-libfunc callback closure passed to `generate_equations`
(lib.rs lines 60-73): look up the libfunc in the registry — the `?` on
`registry.get_libfunc(libfunc_id)?` wraps a lookup failure into
`ApChangeError.ProgramRegistryError` through the `#[from]` conversion — then
classify it with `core_libfunc_ap_change` (external, a parameter here) and
map every classification through the rewriting; the per-item closure always
returns `Ok`, so the `collect` yields the mapped list.  The concrete libfunc
type is external, hence the type parameter `L`. -/
def libfuncEffectsCallback {L : Type}
    (get_libfunc : LibfuncId → Except ProgramRegistryError L)
    (classifier : L → List ApChange) (libfunc_id : LibfuncId) :
    Except ApChangeError (List Effects) :=
  match get_libfunc libfunc_id with
  | Except.error e => Except.error (ApChangeError.ProgramRegistryError e)
  | Except.ok libfunc => Except.ok (libfuncBranchEffects (classifier libfunc))

/-! ## Branch-target validation of the Equation Generator -/

/-- Modelled from the spec: a statement of the IR Program View (spec section 2
item 1) — either an invocation with a list of outgoing branch-target indices,
or a return.  The concrete statement type lives in `cairo_lang_sierra`, which
is not part of the repository excerpt. -/
inductive SpecStatement where
  | invocation (branches : List Nat) : SpecStatement
  | ret : SpecStatement
deriving DecidableEq, Repr

/-- First branch target of the list that is at or beyond the statement
count, if any. -/
def firstOOB (count : Nat) : List Nat → Option Nat
  | [] => none
  | t :: ts => if count ≤ t then some t else firstOOB count ts

/-- Modelled from the spec: the branch-target validation of the Equation
Generator (`generate_equations`, a module of this crate that is not under
`src/`).  Per spec section 4.2, statements are iterated in increasing
program-point order (step 1) and every branch target is validated against the
statement count; a target at or beyond the end of the sequence yields
`StatementOutOfBounds` (step 7, error list). -/
def validateTargets (count : Nat) : List SpecStatement → Except ApChangeError Unit
  | [] => Except.ok ()
  | SpecStatement.ret :: rest => validateTargets count rest
  | SpecStatement.invocation branches :: rest =>
    match firstOOB count branches with
    | some t => Except.error (ApChangeError.StatementOutOfBounds { idx := t })
    | none => validateTargets count rest

/-- Modelled from the spec: the bounds-checking aspect of equation generation
for a whole program — every branch target of every statement is validated
against the total statement count. -/
def generateEquationsBounds (program : List SpecStatement) : Except ApChangeError Unit :=
  validateTargets program.length program

/-! ## The `cairo-run` driver (`src/crates/bin/cairo-run/src/main.rs`) -/

/-- Command-line arguments of `cairo-run` (main.rs lines 21-35).  These four
fields are the complete CLI surface. -/
structure Args where
  path : String
  single_file : Bool
  available_gas : Option Nat
  print_full_memory : Bool

/-- State type `cairo_lang_runner::StarknetState`; external type, only its
`Default` construction is observable in main.rs.  Modelled as an opaque
store. -/
structure StarknetState where
  store : List (Nat × Nat)
deriving DecidableEq, Repr

/-- Model of `StarknetState::default()`. -/
def StarknetState.mkDefault : StarknetState := { store := [] }

/-- The gas gate of `main` (main.rs lines 56-58): bail out when the program
requires a gas counter but `--available-gas` was not provided. -/
def requiresGasGate (available_gas : Option Nat) (requires_gas_counter : Bool) :
    Except String Unit :=
  if available_gas.isNone && requires_gas_counter then
    Except.error "Program requires gas counter, please provide `--available-gas` argument."
  else
    Except.ok ()

/-- The metadata argument passed to `SierraCasmRunner::new` (main.rs line 65):
`Some(Default::default())` exactly when `--available-gas` was provided.
`Default::default()` of the external metadata-config type is modelled as `()`. -/
def runnerGasMetadata (available_gas : Option Nat) : Option Unit :=
  if available_gas.isSome then some () else none

/-- The gas-handling stage of `main`: first the gate, then the runner
construction receives the metadata argument (main.rs lines 56-67). -/
def mainGasStage (available_gas : Option Nat) (requires_gas_counter : Bool) :
    Except String (Option Unit) :=
  match requiresGasGate available_gas requires_gas_counter with
  | Except.error e => Except.error e
  | Except.ok () => Except.ok (runnerGasMetadata available_gas)

/-- Arguments of the `run_function_with_starknet_context` call in `main`
(main.rs lines 111-118). -/
structure RunRequest where
  function_name : String
  call_args : List Int
  available_gas : Option Nat
  starknet_state : StarknetState
deriving DecidableEq, Repr

/-- The run request `main` issues: the function found by
`runner.find_function("::main")`, the empty argument slice `&[]`,
`args.available_gas` and `StarknetState::default()` (main.rs lines 111-118). -/
def mainRunRequest (cli : Args) : RunRequest :=
  { function_name := "::main"
    call_args := []
    available_gas := cli.available_gas
    starknet_state := StarknetState.mkDefault }

/-- The four debug-dump paths hardcoded in `main` (main.rs lines 74-98), in
write order. -/
def debugDumpPaths : List String :=
  ["/Users/kunaljain/Code/cairo/sierra_program.txt",
   "/Users/kunaljain/Code/cairo/sierra_program_no_debug.txt",
   "/Users/kunaljain/Code/cairo/casm_program.txt",
   "/Users/kunaljain/Code/cairo/casm_bytecode.txt"]

/-- Oracle for the file-system operations used by the debug dumps:
whether `File::create`, `write_all` and `flush` succeed for a given path. -/
structure FsOps where
  create : String → Bool
  write_all : String → Bool
  flush : String → Bool

/-- Observable events of the post-compilation stage of `main`. -/
inductive RunEvent where
  | wrote (path : String) : RunEvent
  | ran_main : RunEvent
deriving DecidableEq, Repr

/-- One debug dump (main.rs, each of the four `File::create` /
`file.write_all` / `file.flush` groups): every operation's `Result` is
`.unwrap()`ed, so any failure aborts the process (modelled as `none`). -/
def dumpFile (fs : FsOps) (path : String) : Option RunEvent :=
  if fs.create path then
    if fs.write_all path then
      if fs.flush path then some (RunEvent.wrote path)
      else none
    else none
  else none

/-- Sequential execution of the debug dumps in program order; the first
failing operation aborts the whole run. -/
def dumpAll (fs : FsOps) : List String → Option (List RunEvent)
  | [] => some []
  | p :: ps =>
    match dumpFile fs p with
    | none => none
    | some e =>
      match dumpAll fs ps with
      | none => none
      | some es => some (e :: es)

/-- The post-compilation stage of `main` (main.rs lines 73-118): write the
four debug files, then run the `::main` function. -/
def postCompilation (fs : FsOps) : Option (List RunEvent) :=
  match dumpAll fs debugDumpPaths with
  | none => none
  | some es => some (es ++ [RunEvent.ran_main])

/-! ## Helper lemmas about the assembly loop -/

theorem lastAssignment_mem : ∀ {sol : List (Var × Int)} {k : Var} {i : Int},
    lastAssignment sol k = some i → (k, i) ∈ sol := by
  intro sol
  induction sol with
  | nil => intro k i h; cases h
  | cons p rest ih =>
    intro k i h
    obtain ⟨v, j⟩ := p
    simp only [lastAssignment] at h
    cases hrest : lastAssignment rest k with
    | some m =>
      rw [hrest] at h
      cases h
      exact List.mem_cons_of_mem _ (ih hrest)
    | none =>
      rw [hrest] at h
      by_cases hv : v = k
      · rw [if_pos hv] at h
        cases h
        subst hv
        exact List.mem_cons_self _ _
      · rw [if_neg hv] at h
        cases h

theorem lastAssignment_eq_none_iff (sol : List (Var × Int)) (k : Var) :
    lastAssignment sol k = none ↔ ∀ i, (k, i) ∉ sol := by
  induction sol with
  | nil => simp [lastAssignment]
  | cons p rest ih =>
    obtain ⟨v, j⟩ := p
    simp only [lastAssignment]
    cases hrest : lastAssignment rest k with
    | some m =>
      constructor
      · intro h; cases h
      · intro h
        exact absurd (List.mem_cons_of_mem _ (lastAssignment_mem hrest)) (h m)
    | none =>
      rw [hrest] at ih
      by_cases hv : v = k
      · subst hv
        rw [if_pos rfl]
        constructor
        · intro h; cases h
        · intro h
          exact absurd (List.mem_cons_self _ _) (h j)
      · rw [if_neg hv]
        constructor
        · intro _ i hmem
          rcases List.mem_cons.mp hmem with h | h
          · exact hv (by cases h; rfl)
          · exact (ih.mp rfl) i h
        · intro _; rfl

theorem lastAssignment_of_nodup : ∀ {sol : List (Var × Int)},
    (sol.map Prod.fst).Nodup → ∀ {k : Var} {i : Int}, (k, i) ∈ sol →
    lastAssignment sol k = some i := by
  intro sol
  induction sol with
  | nil => intro _ k i h; cases h
  | cons p rest ih =>
    intro hnd k i hmem
    obtain ⟨v, j⟩ := p
    rw [List.map_cons, List.nodup_cons] at hnd
    obtain ⟨hv_not, hnd_rest⟩ := hnd
    simp only [lastAssignment]
    rcases List.mem_cons.mp hmem with h | h
    · cases h
      have hnone : lastAssignment rest k = none := by
        rw [lastAssignment_eq_none_iff]
        intro m hm
        exact hv_not (List.mem_map.mpr ⟨(k, m), hm, rfl⟩)
      rw [hnone, if_pos rfl]
    · rw [ih hnd_rest h]

theorem lastAssignment_perm {sol₁ sol₂ : List (Var × Int)} (hp : sol₁.Perm sol₂)
    (hnd : (sol₁.map Prod.fst).Nodup) (k : Var) :
    lastAssignment sol₁ k = lastAssignment sol₂ k := by
  have hnd₂ : (sol₂.map Prod.fst).Nodup := (List.Perm.nodup_iff (hp.map Prod.fst)).mp hnd
  cases h₁ : lastAssignment sol₁ k with
  | some i =>
    exact (lastAssignment_of_nodup hnd₂ (hp.mem_iff.mp (lastAssignment_mem h₁))).symm
  | none =>
    cases h₂ : lastAssignment sol₂ k with
    | none => rfl
    | some i =>
      exact absurd (hp.mem_iff.mpr (lastAssignment_mem h₂))
        ((lastAssignment_eq_none_iff sol₁ k).mp h₁ i)

theorem assemble_variable_values (sol : List (Var × Int)) :
    ∀ (acc : ApChangeInfo) (j : StatementIdx),
    (assembleSolution acc sol).variable_values j =
      match lastAssignment sol (Var.LibfuncImplicitApChangeVariable j) with
      | some i => some (usizeOfInt i)
      | none => acc.variable_values j := by
  induction sol with
  | nil => intro acc j; rfl
  | cons p rest ih =>
    intro acc j
    obtain ⟨v, i⟩ := p
    show (assembleSolution (recordVar acc v i) rest).variable_values j = _
    rw [ih]
    simp only [lastAssignment]
    cases hrest : lastAssignment rest (Var.LibfuncImplicitApChangeVariable j) with
    | some m => rfl
    | none =>
      cases v with
      | LibfuncImplicitApChangeVariable idx =>
        by_cases hj : idx = j
        · subst hj
          simp [recordVar]
        · have hne : Var.LibfuncImplicitApChangeVariable idx ≠
              Var.LibfuncImplicitApChangeVariable j := by
            intro h; exact hj (by cases h; rfl)
          rw [if_neg hne]
          simp only [recordVar]
          rw [if_neg (fun h => hj h.symm)]
      | FunctionApChange f =>
        rw [if_neg (fun h => nomatch h)]
        rfl

theorem assemble_function_ap_change (sol : List (Var × Int)) :
    ∀ (acc : ApChangeInfo) (g : FunctionId),
    (assembleSolution acc sol).function_ap_change g =
      match lastAssignment sol (Var.FunctionApChange g) with
      | some i => some (usizeOfInt i)
      | none => acc.function_ap_change g := by
  induction sol with
  | nil => intro acc g; rfl
  | cons p rest ih =>
    intro acc g
    obtain ⟨v, i⟩ := p
    show (assembleSolution (recordVar acc v i) rest).function_ap_change g = _
    rw [ih]
    simp only [lastAssignment]
    cases hrest : lastAssignment rest (Var.FunctionApChange g) with
    | some m => rfl
    | none =>
      cases v with
      | LibfuncImplicitApChangeVariable idx =>
        rw [if_neg (fun h => nomatch h)]
        rfl
      | FunctionApChange f =>
        by_cases hg : f = g
        · subst hg
          simp [recordVar]
        · have hne : Var.FunctionApChange f ≠ Var.FunctionApChange g := by
            intro h; exact hg (by cases h; rfl)
          rw [if_neg hne]
          simp only [recordVar]
          rw [if_neg (fun h => hg h.symm)]

theorem ApChangeInfo.ext_maps (a b : ApChangeInfo)
    (h1 : ∀ j, a.variable_values j = b.variable_values j)
    (h2 : ∀ g, a.function_ap_change g = b.function_ap_change g) : a = b := by
  cases a
  cases b
  simp only [ApChangeInfo.mk.injEq]
  exact ⟨funext h1, funext h2⟩

theorem coe_usizeOfInt_of_bounds {i : Int} (h0 : 0 ≤ i) (h1 : i < 2 ^ 63) :
    ((usizeOfInt i : Nat) : Int) = i := by
  have h2 : i < (2 : Int) ^ 64 := lt_trans h1 (by norm_num)
  unfold usizeOfInt
  rw [Int.emod_eq_of_lt h0 h2, Int.toNat_of_nonneg h0]

/-! ## Helper lemmas about the control flow of `calc_ap_changes` -/

theorem calc_ap_changes_reg_error {R E : Type} (e : ProgramRegistryError)
    (gen : R → Except ApChangeError E) (solver : E → Option (List (Var × Int))) :
    calc_ap_changes (Except.error e) gen solver =
      Except.error (ApChangeError.ProgramRegistryError e) := rfl

theorem calc_ap_changes_gen_error {R E : Type} (r : R)
    {gen : R → Except ApChangeError E} (e : ApChangeError)
    (hg : gen r = Except.error e) (solver : E → Option (List (Var × Int))) :
    calc_ap_changes (Except.ok r) gen solver = Except.error e := by
  simp only [calc_ap_changes]
  rw [hg]

theorem calc_ap_changes_gen_ok {R E : Type} (r : R)
    {gen : R → Except ApChangeError E} (equations : E)
    (hg : gen r = Except.ok equations) (solver : E → Option (List (Var × Int))) :
    calc_ap_changes (Except.ok r) gen solver =
      match solver equations with
      | none => Except.error ApChangeError.SolvingApChangeEquationFailed
      | some solution => Except.ok (assembleSolution emptyInfo solution) := by
  simp only [calc_ap_changes]
  rw [hg]

/-! ## Helper lemmas about branch-target validation -/

theorem firstOOB_some (count : Nat) : ∀ {l : List Nat} {t : Nat},
    firstOOB count l = some t → count ≤ t ∧ t ∈ l := by
  intro l
  induction l with
  | nil => intro t h; cases h
  | cons x xs ih =>
    intro t h
    simp only [firstOOB] at h
    by_cases hx : count ≤ x
    · rw [if_pos hx] at h
      cases h
      exact ⟨hx, List.mem_cons_self _ _⟩
    · rw [if_neg hx] at h
      obtain ⟨h1, h2⟩ := ih h
      exact ⟨h1, List.mem_cons_of_mem _ h2⟩

theorem firstOOB_eq_none_iff (count : Nat) (l : List Nat) :
    firstOOB count l = none ↔ ∀ t ∈ l, t < count := by
  induction l with
  | nil => simp [firstOOB]
  | cons x xs ih =>
    simp only [firstOOB]
    by_cases hx : count ≤ x
    · rw [if_pos hx]
      constructor
      · intro h; cases h
      · intro h
        exact absurd (h x (List.mem_cons_self _ _)) (Nat.not_lt.mpr hx)
    · rw [if_neg hx]
      rw [ih]
      constructor
      · intro h t ht
        rcases List.mem_cons.mp ht with h' | h'
        · subst h'; exact Nat.not_le.mp hx
        · exact h t h'
      · intro h t ht
        exact h t (List.mem_cons_of_mem _ ht)

theorem validateTargets_error (count : Nat) : ∀ (l : List SpecStatement),
    (∃ s ∈ l, ∃ br, s = SpecStatement.invocation br ∧ ∃ t ∈ br, count ≤ t) →
    ∃ t, count ≤ t ∧ validateTargets count l =
      Except.error (ApChangeError.StatementOutOfBounds { idx := t }) := by
  intro l
  induction l with
  | nil =>
    rintro ⟨s, hs, _⟩
    cases hs
  | cons s rest ih =>
    rintro ⟨s', hs', br, hbr, t, ht, hle⟩
    rcases List.mem_cons.mp hs' with h | h
    · subst h
      subst hbr
      simp only [validateTargets]
      cases hf : firstOOB count br with
      | some u => exact ⟨u, (firstOOB_some count hf).1, rfl⟩
      | none =>
        exact absurd hle (Nat.not_le.mpr ((firstOOB_eq_none_iff count br).mp hf t ht))
    · cases s with
      | ret => exact ih ⟨s', h, br, hbr, t, ht, hle⟩
      | invocation br' =>
        simp only [validateTargets]
        cases hf : firstOOB count br' with
        | some u => exact ⟨u, (firstOOB_some count hf).1, rfl⟩
        | none => exact ih ⟨s', h, br, hbr, t, ht, hle⟩

/-! ## Helper lemmas about the debug dumps -/

theorem dumpAll_all_ok (fs : FsOps) : ∀ (l : List String),
    (∀ p ∈ l, fs.create p = true ∧ fs.write_all p = true ∧ fs.flush p = true) →
    dumpAll fs l = some (l.map RunEvent.wrote) := by
  intro l
  induction l with
  | nil => intro _; rfl
  | cons p ps ih =>
    intro h
    obtain ⟨hc, hw, hf⟩ := h p (List.mem_cons_self _ _)
    simp only [dumpAll, dumpFile, hc, hw, hf, if_pos]
    rw [ih (fun q hq => h q (List.mem_cons_of_mem _ hq))]
    rfl

theorem dumpAll_fails (fs : FsOps) : ∀ (l : List String),
    (∃ p ∈ l, fs.create p = false ∨ fs.write_all p = false ∨ fs.flush p = false) →
    dumpAll fs l = none := by
  intro l
  induction l with
  | nil =>
    rintro ⟨p, hp, _⟩
    cases hp
  | cons q ps ih =>
    rintro ⟨p, hp, hfail⟩
    rcases List.mem_cons.mp hp with h | h
    · subst h
      have hqnone : dumpFile fs p = none := by
        unfold dumpFile
        rcases hfail with h' | h' | h'
        · simp [h']
        · simp [h']
        · simp [h']
      simp only [dumpAll, hqnone]
    · have := ih ⟨p, h, hfail⟩
      unfold dumpAll
      cases hq : dumpFile fs q with
      | none => rfl
      | some e => rw [this]

/-! ## Claim theorems -/

/-- C1: During `calc_ap_changes`, every branch classification
`AtLocalsFinalization(n)` is rewritten to an Effect with AP-change component
`Known(0)` and locals component `n`, and every other classification passes
through unchanged as the AP-change component with locals component `0`. -/
theorem effects_rewrite_at_locals_finalization :
    (∀ n, effectOfApChange (ApChange.AtLocalsFinalization n) =
      { ap_change := ApChange.Known 0, locals := n }) ∧
    (∀ a : ApChange, (∀ n, a ≠ ApChange.AtLocalsFinalization n) →
      effectOfApChange a = { ap_change := a, locals := 0 }) := by
  refine ⟨fun n => rfl, fun a h => ?_⟩
  cases a with
  | AtLocalsFinalization n => exact absurd rfl (h n)
  | Unknown => rfl
  | Known n => rfl
  | FromMetadata => rfl
  | FunctionCall f => rfl
  | FinalizeLocals => rfl

/-- Witness for C1: the pass-through case at the concrete classification
`FromMetadata`. -/
theorem effects_rewrite_at_locals_finalization_witness :
    effectOfApChange ApChange.FromMetadata =
      { ap_change := ApChange.FromMetadata, locals := 0 } :=
  effects_rewrite_at_locals_finalization.2 ApChange.FromMetadata (fun _ h => nomatch h)

/-- C2: the Result Assembler is a total fold over the solver's assignment
(its Lean type is total by construction — no error channel): every pair keyed
by an implicit-AP-change variable at point `idx` lands in the program-point
map at key `idx`, every pair keyed by a function-AP-change variable for `f`
lands in the function map at key `f`, and each of the two maps receives
entries only from pairs of its own kind, so every pair goes to exactly one of
the two maps. -/
theorem result_assembler_total_routing (sol : List (Var × Int)) :
    (∀ (idx : StatementIdx) (value : Int),
      (Var.LibfuncImplicitApChangeVariable idx, value) ∈ sol →
      (assembleSolution emptyInfo sol).variable_values idx ≠ none) ∧
    (∀ (f : FunctionId) (value : Int),
      (Var.FunctionApChange f, value) ∈ sol →
      (assembleSolution emptyInfo sol).function_ap_change f ≠ none) ∧
    (∀ (idx : StatementIdx) (v : Nat),
      (assembleSolution emptyInfo sol).variable_values idx = some v →
      ∃ i : Int, (Var.LibfuncImplicitApChangeVariable idx, i) ∈ sol ∧ v = usizeOfInt i) ∧
    (∀ (f : FunctionId) (v : Nat),
      (assembleSolution emptyInfo sol).function_ap_change f = some v →
      ∃ i : Int, (Var.FunctionApChange f, i) ∈ sol ∧ v = usizeOfInt i) := by
  refine ⟨?_, ?_, ?_, ?_⟩
  · intro idx value hmem
    rw [assemble_variable_values]
    cases hl : lastAssignment sol (Var.LibfuncImplicitApChangeVariable idx) with
    | some i => exact fun hcon => nomatch (show some (usizeOfInt i) = none from hcon)
    | none => exact absurd hmem ((lastAssignment_eq_none_iff _ _).mp hl value)
  · intro f value hmem
    rw [assemble_function_ap_change]
    cases hl : lastAssignment sol (Var.FunctionApChange f) with
    | some i => exact fun hcon => nomatch (show some (usizeOfInt i) = none from hcon)
    | none => exact absurd hmem ((lastAssignment_eq_none_iff _ _).mp hl value)
  · intro idx v h
    rw [assemble_variable_values] at h
    cases hl : lastAssignment sol (Var.LibfuncImplicitApChangeVariable idx) with
    | some i =>
      rw [hl] at h
      have h' : some (usizeOfInt i) = some v := h
      injection h' with h''
      exact ⟨i, lastAssignment_mem hl, h''.symm⟩
    | none =>
      rw [hl] at h
      exact nomatch (show (none : Option Nat) = some v from h)
  · intro f v h
    rw [assemble_function_ap_change] at h
    cases hl : lastAssignment sol (Var.FunctionApChange f) with
    | some i =>
      rw [hl] at h
      have h' : some (usizeOfInt i) = some v := h
      injection h' with h''
      exact ⟨i, lastAssignment_mem hl, h''.symm⟩
    | none =>
      rw [hl] at h
      exact nomatch (show (none : Option Nat) = some v from h)

/-- Witness for C2: a singleton assignment for program point 0 lands in the
program-point map. -/
theorem result_assembler_total_routing_witness :
    (assembleSolution emptyInfo
        [(Var.LibfuncImplicitApChangeVariable { idx := 0 }, (5 : Int))]).variable_values
      { idx := 0 } ≠ none :=
  (result_assembler_total_routing _).1 { idx := 0 } 5 (List.mem_singleton.mpr rfl)

/-- C3: `calc_ap_changes` returns `SolvingApChangeEquationFailed` if and only
if the external equation solver reports that no satisfying assignment exists
for the generated equation system; in that case the result is an error, so no
partial result maps are produced.  The hypothesis records that equation
generation itself never produces this error (per spec section 4.2 it belongs
to the solve step). -/
theorem solving_ap_change_equation_failed_iff (R E : Type)
    (regResult : Except ProgramRegistryError R) (gen : R → Except ApChangeError E)
    (solver : E → Option (List (Var × Int)))
    (hgen : ∀ r, gen r ≠ Except.error ApChangeError.SolvingApChangeEquationFailed) :
    calc_ap_changes regResult gen solver =
        Except.error ApChangeError.SolvingApChangeEquationFailed ↔
      ∃ r equations, regResult = Except.ok r ∧ gen r = Except.ok equations ∧
        solver equations = none := by
  cases regResult with
  | error e =>
    rw [calc_ap_changes_reg_error]
    constructor
    · intro h
      injection h with h'
      exact ApChangeError.noConfusion h'
    · rintro ⟨r, equations, hr, _, _⟩
      exact nomatch hr
  | ok r =>
    cases hg : gen r with
    | error e =>
      rw [calc_ap_changes_gen_error r e hg]
      constructor
      · intro h
        injection h with h'
        exact absurd (hg.trans (congrArg Except.error h')) (hgen r)
      · rintro ⟨r', equations, hr, hgeq, _⟩
        injection hr with hr'
        subst hr'
        rw [hg] at hgeq
        exact nomatch hgeq
    | ok equations =>
      rw [calc_ap_changes_gen_ok r equations hg]
      cases hs : solver equations with
      | none =>
        constructor
        · intro _
          exact ⟨r, equations, rfl, hg, hs⟩
        · intro _
          rfl
      | some solution =>
        constructor
        · intro h
          exact nomatch h
        · rintro ⟨r', equations', hr, hgeq, hsol⟩
          injection hr with hr'
          subst hr'
          rw [hg] at hgeq
          injection hgeq with he
          subst he
          rw [hs] at hsol
          exact nomatch hsol

/-- Witness for C3: with a trivially succeeding generator and a solver that
reports unsolvability, `calc_ap_changes` fails with exactly
`SolvingApChangeEquationFailed`. -/
theorem solving_ap_change_equation_failed_iff_witness :
    calc_ap_changes (Except.ok ())
        (fun _ : Unit => (Except.ok () : Except ApChangeError Unit))
        (fun _ : Unit => (none : Option (List (Var × Int)))) =
      Except.error ApChangeError.SolvingApChangeEquationFailed :=
  (solving_ap_change_equation_failed_iff Unit Unit (Except.ok ())
      (fun _ => Except.ok ()) (fun _ => none)
      (fun _ h => nomatch h)).mpr ⟨(), (), rfl, rfl, rfl⟩

/-- Counterexample for C4: the claim states that every failed lookup —
including type-size lookups through the `ApChangeInfoProvider`
implementation — is returned as a wrapped registry error rather than
crashing.  But `type_size` (lib.rs lines 51-55) calls `.unwrap()` on the
lookup result: on `failingRegistry` at type id 0 the lookup fails and
`type_size` aborts (modelled as `none`) instead of producing any error
value. -/
theorem registry_error_wrapping_counterexample :
    ¬ (∀ (reg : TypeRegistry) (ty : ConcreteTypeId),
        (∃ e, reg.get_type ty = Except.error e) → type_size reg ty ≠ none) := by
  intro h
  exact h failingRegistry 0 ⟨{ code := 0 }, rfl⟩ rfl

/-- C4 (amended): registry failures reaching `calc_ap_changes` through the
`?` operator — both at registry construction and at the libfunc lookup inside
the `generate_equations` callback — are wrapped as the `ProgramRegistryError`
variant carrying the original inner error value unchanged; but type-size
lookups through the `ApChangeInfoProvider` implementation `.unwrap()` the
lookup result — they abort on failure instead of wrapping it, and only on
success return the cast size. -/
theorem registry_error_wrapping_amended :
    (∀ (R E : Type) (gen : R → Except ApChangeError E)
        (solver : E → Option (List (Var × Int))) (e : ProgramRegistryError),
      calc_ap_changes (Except.error e : Except ProgramRegistryError R) gen solver =
        Except.error (ApChangeError.ProgramRegistryError e)) ∧
    (∀ (L : Type) (get_libfunc : LibfuncId → Except ProgramRegistryError L)
        (classifier : L → List ApChange) (libfunc_id : LibfuncId)
        (e : ProgramRegistryError),
      get_libfunc libfunc_id = Except.error e →
      libfuncEffectsCallback get_libfunc classifier libfunc_id =
        Except.error (ApChangeError.ProgramRegistryError e)) ∧
    (∀ (L : Type) (get_libfunc : LibfuncId → Except ProgramRegistryError L)
        (classifier : L → List ApChange) (libfunc_id : LibfuncId) (libfunc : L),
      get_libfunc libfunc_id = Except.ok libfunc →
      libfuncEffectsCallback get_libfunc classifier libfunc_id =
        Except.ok (libfuncBranchEffects (classifier libfunc))) ∧
    (∀ (reg : TypeRegistry) (ty : ConcreteTypeId) (e : ProgramRegistryError),
      reg.get_type ty = Except.error e → type_size reg ty = none) ∧
    (∀ (reg : TypeRegistry) (ty : ConcreteTypeId) (info : TypeInfo),
      reg.get_type ty = Except.ok info →
      type_size reg ty = some (usizeOfInt info.size)) := by
  refine ⟨fun R E gen solver e => rfl, ?_, ?_, ?_, ?_⟩
  · intro L get_libfunc classifier libfunc_id e h
    unfold libfuncEffectsCallback
    rw [h]
  · intro L get_libfunc classifier libfunc_id libfunc h
    unfold libfuncEffectsCallback
    rw [h]
  · intro reg ty e h
    unfold type_size
    rw [h]
  · intro reg ty info h
    unfold type_size
    rw [h]

/-- Witness for C4 (amended): a concrete wrapped registry-construction error,
a concrete wrapped libfunc-lookup failure inside the generation callback, and
the concrete aborting type-size lookup. -/
theorem registry_error_wrapping_amended_witness :
    calc_ap_changes (Except.error { code := 7 } : Except ProgramRegistryError Unit)
        (fun _ : Unit => (Except.ok () : Except ApChangeError Unit))
        (fun _ : Unit => (none : Option (List (Var × Int)))) =
      Except.error (ApChangeError.ProgramRegistryError { code := 7 }) ∧
    libfuncEffectsCallback
        (fun _ : LibfuncId => (Except.error { code := 3 } : Except ProgramRegistryError Unit))
        (fun _ : Unit => ([] : List ApChange)) 0 =
      Except.error (ApChangeError.ProgramRegistryError { code := 3 }) ∧
    type_size failingRegistry 0 = none :=
  ⟨registry_error_wrapping_amended.1 Unit Unit (fun _ => Except.ok ()) (fun _ => none)
      { code := 7 },
   registry_error_wrapping_amended.2.1 Unit (fun _ => Except.error { code := 3 })
      (fun _ => []) 0 { code := 3 } rfl,
   registry_error_wrapping_amended.2.2.2.1 failingRegistry 0 { code := 0 } rfl⟩

/-- C5: every value stored in the two maps of a successful analysis result is
the value the solver assigned to the corresponding variable — the `as usize`
conversion alters nothing, given the solver's contract of returning
non-negative (`i64`-ranged) integers.  The stored values are `Nat`, hence
non-negative by type. -/
theorem solved_values_preserved (sol : List (Var × Int))
    (hbound : ∀ p ∈ sol, 0 ≤ p.2 ∧ p.2 < 2 ^ 63) :
    (∀ (j : StatementIdx) (v : Nat),
      (assembleSolution emptyInfo sol).variable_values j = some v →
      (Var.LibfuncImplicitApChangeVariable j, (v : Int)) ∈ sol) ∧
    (∀ (g : FunctionId) (v : Nat),
      (assembleSolution emptyInfo sol).function_ap_change g = some v →
      (Var.FunctionApChange g, (v : Int)) ∈ sol) := by
  constructor
  · intro j v h
    rw [assemble_variable_values] at h
    cases hl : lastAssignment sol (Var.LibfuncImplicitApChangeVariable j) with
    | some i =>
      rw [hl] at h
      have h' : some (usizeOfInt i) = some v := h
      injection h' with h''
      have hmem := lastAssignment_mem hl
      obtain ⟨h0, h1⟩ := hbound _ hmem
      have hv : (v : Int) = i := by
        rw [← h'']
        exact coe_usizeOfInt_of_bounds h0 h1
      rw [hv]
      exact hmem
    | none =>
      rw [hl] at h
      exact nomatch (show (none : Option Nat) = some v from h)
  · intro g v h
    rw [assemble_function_ap_change] at h
    cases hl : lastAssignment sol (Var.FunctionApChange g) with
    | some i =>
      rw [hl] at h
      have h' : some (usizeOfInt i) = some v := h
      injection h' with h''
      have hmem := lastAssignment_mem hl
      obtain ⟨h0, h1⟩ := hbound _ hmem
      have hv : (v : Int) = i := by
        rw [← h'']
        exact coe_usizeOfInt_of_bounds h0 h1
      rw [hv]
      exact hmem
    | none =>
      rw [hl] at h
      exact nomatch (show (none : Option Nat) = some v from h)

/-- Witness for C5: the stored value for program point 0 is exactly the
solver-assigned 5. -/
theorem solved_values_preserved_witness :
    (Var.LibfuncImplicitApChangeVariable { idx := 0 }, ((5 : Nat) : Int)) ∈
      [(Var.LibfuncImplicitApChangeVariable { idx := 0 }, (5 : Int))] :=
  (solved_values_preserved
      [(Var.LibfuncImplicitApChangeVariable { idx := 0 }, (5 : Int))]
      (by decide)).1 { idx := 0 } 5 rfl

/-- C6: `calc_ap_changes` is deterministic — it is a pure function of its
inputs, so two runs on the same program with the same external collaborators
return identical results; moreover the assembled result maps do not depend on
the iteration order of the solver's assignment (for any two orderings of a
well-formed, duplicate-free assignment the maps coincide). -/
theorem calc_ap_changes_deterministic :
    (∀ (R E : Type) (regResult : Except ProgramRegistryError R)
        (gen : R → Except ApChangeError E) (solver : E → Option (List (Var × Int))),
      calc_ap_changes regResult gen solver = calc_ap_changes regResult gen solver) ∧
    (∀ sol₁ sol₂ : List (Var × Int), sol₁.Perm sol₂ → (sol₁.map Prod.fst).Nodup →
      assembleSolution emptyInfo sol₁ = assembleSolution emptyInfo sol₂) := by
  constructor
  · intro R E regResult gen solver
    rfl
  · intro sol₁ sol₂ hp hnd
    apply ApChangeInfo.ext_maps
    · intro j
      rw [assemble_variable_values, assemble_variable_values,
        lastAssignment_perm hp hnd]
    · intro g
      rw [assemble_function_ap_change, assemble_function_ap_change,
        lastAssignment_perm hp hnd]

/-- Witness for C6: the two orderings of a concrete two-variable assignment
assemble to the same result maps. -/
theorem calc_ap_changes_deterministic_witness :
    assembleSolution emptyInfo
        [(Var.FunctionApChange 0, (1 : Int)),
         (Var.LibfuncImplicitApChangeVariable { idx := 0 }, (2 : Int))] =
      assembleSolution emptyInfo
        [(Var.LibfuncImplicitApChangeVariable { idx := 0 }, (2 : Int)),
         (Var.FunctionApChange 0, (1 : Int))] :=
  calc_ap_changes_deterministic.2 _ _ (List.Perm.swap _ _ _) (by decide)

/-- C7: for every program containing a statement with a branch target at or
beyond the statement count (one past the end included), the bounds validation
of the Equation Generator fails with a `StatementOutOfBounds` error carrying
an out-of-range target index — it returns an error, never a result. -/
theorem branch_target_out_of_bounds (program : List SpecStatement)
    (h : ∃ s ∈ program, ∃ br, s = SpecStatement.invocation br ∧
      ∃ t ∈ br, program.length ≤ t) :
    ∃ t, program.length ≤ t ∧
      generateEquationsBounds program =
        Except.error (ApChangeError.StatementOutOfBounds { idx := t }) :=
  validateTargets_error program.length program h

/-- Witness for C7: a one-statement program whose single branch targets
index 1 — exactly one past the end. -/
theorem branch_target_out_of_bounds_witness :
    ∃ t, 1 ≤ t ∧
      generateEquationsBounds [SpecStatement.invocation [1]] =
        Except.error (ApChangeError.StatementOutOfBounds { idx := t }) :=
  branch_target_out_of_bounds [SpecStatement.invocation [1]]
    ⟨SpecStatement.invocation [1], List.mem_singleton.mpr rfl, [1], rfl, 1,
      List.mem_singleton.mpr rfl, Nat.le_refl 1⟩

/-- C8: on every invocation reaching the post-compilation stage, `cairo-run`
writes the four debug files into the hardcoded absolute directory
`/Users/kunaljain/Code/cairo/`, all of them before running the program, and
aborts (the `.unwrap()` calls) if any of the file creations or writes
fails. -/
theorem debug_dump_files_before_run (fs : FsOps) :
    debugDumpPaths.length = 4 ∧
    (∀ p ∈ debugDumpPaths, ∃ name, p = "/Users/kunaljain/Code/cairo/" ++ name) ∧
    ((∀ p ∈ debugDumpPaths,
        fs.create p = true ∧ fs.write_all p = true ∧ fs.flush p = true) →
      postCompilation fs =
        some (debugDumpPaths.map RunEvent.wrote ++ [RunEvent.ran_main])) ∧
    ((∃ p ∈ debugDumpPaths,
        fs.create p = false ∨ fs.write_all p = false ∨ fs.flush p = false) →
      postCompilation fs = none) := by
  refine ⟨rfl, ?_, ?_, ?_⟩
  · intro p hp
    simp only [debugDumpPaths, List.mem_cons] at hp
    rcases hp with h | h | h | h | h
    · exact ⟨"sierra_program.txt", by rw [h]; rfl⟩
    · exact ⟨"sierra_program_no_debug.txt", by rw [h]; rfl⟩
    · exact ⟨"casm_program.txt", by rw [h]; rfl⟩
    · exact ⟨"casm_bytecode.txt", by rw [h]; rfl⟩
    · exact absurd h (List.not_mem_nil p)
  · intro h
    unfold postCompilation
    rw [dumpAll_all_ok fs debugDumpPaths h]
  · intro h
    unfold postCompilation
    rw [dumpAll_fails fs debugDumpPaths h]

/-- Witness for C8: with a fully functional file system, the trace is the
four writes in order followed by the run. -/
theorem debug_dump_files_before_run_witness :
    postCompilation
        { create := fun _ => true, write_all := fun _ => true, flush := fun _ => true } =
      some (debugDumpPaths.map RunEvent.wrote ++ [RunEvent.ran_main]) :=
  (debug_dump_files_before_run _).2.2.1 (fun _ _ => ⟨rfl, rfl, rfl⟩)

/-- C9: if the compiled program requires a gas counter and `--available-gas`
is absent, `main` fails before constructing the runner; otherwise the runner
is constructed, with gas metadata exactly when `--available-gas` is
present. -/
theorem gas_counter_gate (g : Option Nat) (req : Bool) :
    (g = none → req = true →
      mainGasStage g req =
        Except.error "Program requires gas counter, please provide `--available-gas` argument.") ∧
    (∀ meta, mainGasStage g req = Except.ok meta → (meta.isSome ↔ g.isSome)) ∧
    ((g ≠ none ∨ req = false) → mainGasStage g req = Except.ok (runnerGasMetadata g)) := by
  refine ⟨?_, ?_, ?_⟩
  · intro hg hr
    subst hg; subst hr
    rfl
  · intro meta h
    cases g with
    | none =>
      cases req with
      | false =>
        simp only [mainGasStage, requiresGasGate] at h
        cases h
        simp [runnerGasMetadata]
      | true => exact absurd h (by simp [mainGasStage, requiresGasGate])
    | some v =>
      simp only [mainGasStage, requiresGasGate] at h
      cases h
      simp [runnerGasMetadata]
  · intro h
    cases g with
    | none =>
      cases req with
      | false => rfl
      | true =>
        rcases h with h | h
        · exact absurd rfl h
        · exact absurd h (by simp)
    | some v => rfl

/-- Witness for C9: with no gas argument and a program that requires the gas
counter, `main` bails with the exact error message. -/
theorem gas_counter_gate_witness :
    mainGasStage none true =
      Except.error "Program requires gas counter, please provide `--available-gas` argument." :=
  (gas_counter_gate none true).1 rfl rfl

/-- C10: `cairo-run` always executes the function named `"::main"` with an
empty argument list and a default Starknet state; the run request's entry
point, arguments and state are independent of every command-line option. -/
theorem run_request_fixed_entry :
    (∀ cli : Args,
      (mainRunRequest cli).function_name = "::main" ∧
      (mainRunRequest cli).call_args = [] ∧
      (mainRunRequest cli).starknet_state = StarknetState.mkDefault) ∧
    (∀ cli₁ cli₂ : Args,
      (mainRunRequest cli₁).function_name = (mainRunRequest cli₂).function_name ∧
      (mainRunRequest cli₁).call_args = (mainRunRequest cli₂).call_args ∧
      (mainRunRequest cli₁).starknet_state = (mainRunRequest cli₂).starknet_state) :=
  ⟨fun _ => ⟨rfl, rfl, rfl⟩, fun _ _ => ⟨rfl, rfl, rfl⟩⟩
